import Mathlib

/-!
Verification of the gasdynamics notebooks: the area-Mach residual solve,
the table interpolation cells, and the oblique-shock reflection example.

The notebooks call two external numerical primitives that the repository
does not implement itself: a one-dimensional linear interpolation routine
and a bracketed scalar root-finder.  Both are modelled here from the
specification's contracts; everything else is translated directly from
the notebook cells.
-/

namespace GasDyn

open Real

/-! ## Linear table interpolation -/

/-- Modelled from the spec: the one-dimensional linear interpolation routine
(`numpy.interp` in the notebooks, which the repository does not implement).
Given tabulated points with a non-decreasing independent axis, a query is
linearly interpolated inside the table and clamped to the nearest endpoint
value outside it. -/
def interp (x : ℚ) : List ℚ → List ℚ → ℚ
  | x1 :: x2 :: xs, y1 :: y2 :: ys =>
    if x ≤ x1 then y1
    else if x ≤ x2 then y1 + (y2 - y1) * (x - x1) / (x2 - x1)
    else interp x (x2 :: xs) (y2 :: ys)
  | [_], [y1] => y1
  | _, _ => 0

/-! ## Bracketed scalar root-finding -/

/-- Modelled from the spec: the bracketed scalar root-finder used by both
notebooks (`scipy.optimize.root_scalar`, which the repository does not
implement), realised as bisection on an interval carrying a sign change:
each step keeps the half of the interval across which the residual still
changes sign. -/
noncomputable def bisect (f : ℝ → ℝ) (a b : ℝ) : ℕ → ℝ × ℝ
  | 0 => (a, b)
  | n + 1 =>
    let p := bisect f a b n
    let m := (p.1 + p.2) / 2
    if f p.1 * f m ≤ 0 then (p.1, m) else (m, p.2)

/-- The value the bracketed root solve converges to: the limit of the left
endpoints of the bisection intervals. -/
noncomputable def bisectLimit (f : ℝ → ℝ) (a b : ℝ) : ℝ :=
  ⨆ n, (bisect f a b n).1

/-- Modelled from the spec: the top-level solver call.  A bracket without a
sign change surfaces as an explicit reported failure; otherwise the solver
iterates the bracketed bisection. -/
noncomputable def root_scalar (f : ℝ → ℝ) (a b : ℝ) (n : ℕ) : Except String ℝ :=
  if 0 < f a * f b then Except.error "no root in bracket"
  else Except.ok ((bisect f a b n).1)

theorem bisect_width (f : ℝ → ℝ) (a b : ℝ) :
    ∀ n, (bisect f a b n).2 - (bisect f a b n).1 = (b - a) / 2 ^ n := by
  intro n
  induction n with
  | zero => simp [bisect]
  | succ n ih =>
    simp only [bisect]
    split
    · dsimp only
      rw [pow_succ, ← div_div, ← ih]
      ring
    · dsimp only
      rw [pow_succ, ← div_div, ← ih]
      ring

theorem bisect_fst_le_snd (f : ℝ → ℝ) (a b : ℝ) (hab : a ≤ b) (n : ℕ) :
    (bisect f a b n).1 ≤ (bisect f a b n).2 := by
  have h := bisect_width f a b n
  have h2 : (0:ℝ) ≤ (b - a) / 2 ^ n := div_nonneg (by linarith) (by positivity)
  linarith [h, h2]

theorem bisect_fst_mono (f : ℝ → ℝ) (a b : ℝ) (hab : a ≤ b) :
    Monotone (fun n => (bisect f a b n).1) := by
  apply monotone_nat_of_le_succ
  intro n
  have h := bisect_fst_le_snd f a b hab n
  simp only [bisect]
  split
  · simp
  · simp only
    linarith

theorem bisect_snd_anti (f : ℝ → ℝ) (a b : ℝ) (hab : a ≤ b) :
    Antitone (fun n => (bisect f a b n).2) := by
  apply antitone_nat_of_succ_le
  intro n
  have h := bisect_fst_le_snd f a b hab n
  simp only [bisect]
  split
  · simp only
    linarith
  · simp

theorem bisect_fst_le_snd' (f : ℝ → ℝ) (a b : ℝ) (hab : a ≤ b) (m n : ℕ) :
    (bisect f a b m).1 ≤ (bisect f a b n).2 := by
  rcases le_total m n with h | h
  · exact le_trans (bisect_fst_mono f a b hab h) (bisect_fst_le_snd f a b hab n)
  · exact le_trans (bisect_fst_le_snd f a b hab m) (bisect_snd_anti f a b hab h)

theorem bisect_mem_Icc (f : ℝ → ℝ) (a b : ℝ) (hab : a ≤ b) (n : ℕ) :
    (bisect f a b n).1 ∈ Set.Icc a b ∧ (bisect f a b n).2 ∈ Set.Icc a b := by
  have h0l : (bisect f a b 0).1 = a := rfl
  have h0r : (bisect f a b 0).2 = b := rfl
  constructor
  · exact ⟨h0l ▸ bisect_fst_mono f a b hab (Nat.zero_le n),
      h0r ▸ bisect_fst_le_snd' f a b hab n 0⟩
  · exact ⟨h0l ▸ bisect_fst_le_snd' f a b hab 0 n,
      h0r ▸ bisect_snd_anti f a b hab (Nat.zero_le n)⟩

theorem sign_propagate {u v w : ℝ} (h1 : 0 < u * v) (h2 : u * w ≤ 0) : v * w ≤ 0 := by
  by_contra hc
  push_neg at hc
  nlinarith [mul_pos h1 hc, mul_nonpos_of_nonneg_of_nonpos (sq_nonneg v) h2]

theorem bisect_sign (f : ℝ → ℝ) (a b : ℝ) (hsign : f a * f b ≤ 0) (n : ℕ) :
    f (bisect f a b n).1 * f (bisect f a b n).2 ≤ 0 := by
  induction n with
  | zero => exact hsign
  | succ n ih =>
    simp only [bisect]
    split
    · simpa using ‹_›
    · simp only
      next hyp =>
        push_neg at hyp
        exact sign_propagate hyp ih

theorem bisect_tendsto_limit (f : ℝ → ℝ) (a b : ℝ) (hab : a ≤ b) :
    Filter.Tendsto (fun n => (bisect f a b n).1) Filter.atTop (nhds (bisectLimit f a b)) := by
  apply tendsto_atTop_ciSup (bisect_fst_mono f a b hab)
  exact ⟨b, Set.forall_mem_range.2 fun n => (bisect_mem_Icc f a b hab n).1.2⟩

theorem bisectLimit_mem (f : ℝ → ℝ) (a b : ℝ) (hab : a ≤ b) (n : ℕ) :
    (bisect f a b n).1 ≤ bisectLimit f a b ∧ bisectLimit f a b ≤ (bisect f a b n).2 := by
  constructor
  · exact le_ciSup ⟨b, Set.forall_mem_range.2 fun m => (bisect_mem_Icc f a b hab m).1.2⟩ n
  · exact ciSup_le fun m => bisect_fst_le_snd' f a b hab m n

theorem bisect_snd_tendsto_limit (f : ℝ → ℝ) (a b : ℝ) (hab : a ≤ b) :
    Filter.Tendsto (fun n => (bisect f a b n).2) Filter.atTop (nhds (bisectLimit f a b)) := by
  have hw : ∀ n, (bisect f a b n).2 = (bisect f a b n).1 + (b - a) * (1/2 : ℝ) ^ n := by
    intro n
    have h := bisect_width f a b n
    rw [div_pow, one_pow, mul_one_div]
    linarith [h]
  have h2 : Filter.Tendsto (fun n : ℕ => (b - a) * (1/2 : ℝ) ^ n) Filter.atTop (nhds 0) := by
    have := (tendsto_pow_atTop_nhds_zero_of_lt_one (by norm_num : (0:ℝ) ≤ 1/2)
      (by norm_num : (1/2 : ℝ) < 1)).const_mul (b - a)
    simpa using this
  have := (bisect_tendsto_limit f a b hab).add h2
  rw [add_zero] at this
  exact this.congr fun n => (hw n).symm

/-- On a continuous residual with a (weak) sign change on the bracket, the
bisection limit is a root lying in the bracket. -/
theorem bisectLimit_root (f : ℝ → ℝ) (a b : ℝ) (hab : a ≤ b)
    (hcont : ContinuousOn f (Set.Icc a b)) (hsign : f a * f b ≤ 0) :
    bisectLimit f a b ∈ Set.Icc a b ∧ f (bisectLimit f a b) = 0 := by
  set c := bisectLimit f a b with hc
  have hmem : c ∈ Set.Icc a b :=
    ⟨le_trans (le_refl a) ((bisectLimit_mem f a b hab 0).1),
      (bisectLimit_mem f a b hab 0).2⟩
  refine ⟨hmem, ?_⟩
  have hcw : ContinuousWithinAt f (Set.Icc a b) c := hcont c hmem
  have hA : Filter.Tendsto (fun n => (bisect f a b n).1) Filter.atTop
      (nhdsWithin c (Set.Icc a b)) :=
    tendsto_nhdsWithin_of_tendsto_nhds_of_eventually_within _
      (bisect_tendsto_limit f a b hab)
      (Filter.Eventually.of_forall fun n => (bisect_mem_Icc f a b hab n).1)
  have hB : Filter.Tendsto (fun n => (bisect f a b n).2) Filter.atTop
      (nhdsWithin c (Set.Icc a b)) :=
    tendsto_nhdsWithin_of_tendsto_nhds_of_eventually_within _
      (bisect_snd_tendsto_limit f a b hab)
      (Filter.Eventually.of_forall fun n => (bisect_mem_Icc f a b hab n).2)
  have hfA : Filter.Tendsto (fun n => f (bisect f a b n).1) Filter.atTop (nhds (f c)) :=
    hcw.tendsto.comp hA
  have hfB : Filter.Tendsto (fun n => f (bisect f a b n).2) Filter.atTop (nhds (f c)) :=
    hcw.tendsto.comp hB
  have hprod : Filter.Tendsto (fun n => f (bisect f a b n).1 * f (bisect f a b n).2)
      Filter.atTop (nhds (f c * f c)) := hfA.mul hfB
  have hle : f c * f c ≤ 0 :=
    le_of_tendsto hprod (Filter.Eventually.of_forall (bisect_sign f a b hsign))
  have hge : 0 ≤ f c * f c := mul_self_nonneg _
  exact mul_self_eq_zero.1 (le_antisymm hle hge)

/-- The residual at the bisection iterates tends to zero: for every
tolerance there is an iteration count whose returned value satisfies the
equation to within that tolerance. -/
theorem bisect_residual_small (f : ℝ → ℝ) (a b : ℝ) (hab : a ≤ b)
    (hcont : ContinuousOn f (Set.Icc a b)) (hsign : f a * f b ≤ 0)
    (ε : ℝ) (hε : 0 < ε) :
    ∃ n, |f (bisect f a b n).1| < ε := by
  obtain ⟨hmem, hzero⟩ := bisectLimit_root f a b hab hcont hsign
  have hcw : ContinuousWithinAt f (Set.Icc a b) (bisectLimit f a b) :=
    hcont _ hmem
  have hA : Filter.Tendsto (fun n => (bisect f a b n).1) Filter.atTop
      (nhdsWithin (bisectLimit f a b) (Set.Icc a b)) :=
    tendsto_nhdsWithin_of_tendsto_nhds_of_eventually_within _
      (bisect_tendsto_limit f a b hab)
      (Filter.Eventually.of_forall fun n => (bisect_mem_Icc f a b hab n).1)
  have hfA : Filter.Tendsto (fun n => f (bisect f a b n).1) Filter.atTop (nhds 0) :=
    hzero ▸ hcw.tendsto.comp hA
  have := Metric.tendsto_atTop.1 hfA ε hε
  obtain ⟨N, hN⟩ := this
  refine ⟨N, ?_⟩
  have := hN N (le_refl N)
  rwa [Real.dist_eq, sub_zero] at this

theorem chain_le_getLast : ∀ (z : ℚ) (l : List ℚ), List.Chain' (· ≤ ·) (z :: l) →
    z ≤ (z :: l).getLast (List.cons_ne_nil z l)
  | _, [], _ => le_refl _
  | z, w :: l, h => by
    rw [List.getLast_cons (List.cons_ne_nil w l)]
    exact le_trans (List.chain'_cons.1 h).1 (chain_le_getLast w l (List.chain'_cons.1 h).2)

theorem interp_clamp_low (x x0 y0 : ℚ) (xs ys : List ℚ) (hlen : xs.length = ys.length)
    (hle : x ≤ x0) : interp x (x0 :: xs) (y0 :: ys) = y0 := by
  cases xs with
  | nil =>
    cases ys with
    | nil => rfl
    | cons y1 ys => simp at hlen
  | cons x1 xs =>
    cases ys with
    | nil => simp at hlen
    | cons y1 ys =>
      simp only [interp]
      rw [if_pos hle]

theorem interp_clamp_high (xs : List ℚ) : ∀ (ys : List ℚ) (x x0 y0 : ℚ),
    xs.length = ys.length → List.Chain' (· ≤ ·) (x0 :: xs) →
    (x0 :: xs).getLast (List.cons_ne_nil x0 xs) < x →
    interp x (x0 :: xs) (y0 :: ys) = (y0 :: ys).getLast (List.cons_ne_nil y0 ys) := by
  induction xs with
  | nil =>
    intro ys x x0 y0 hlen hchain hlt
    cases ys with
    | nil => rfl
    | cons y1 ys => simp at hlen
  | cons x1 xs ih =>
    intro ys x x0 y0 hlen hchain hlt
    cases ys with
    | nil => simp at hlen
    | cons y1 ys =>
      have hx01 : x0 ≤ x1 := (List.chain'_cons.1 hchain).1
      have hch1 : List.Chain' (· ≤ ·) (x1 :: xs) := (List.chain'_cons.1 hchain).2
      rw [List.getLast_cons (List.cons_ne_nil x1 xs)] at hlt
      have hx1 : x1 < x := lt_of_le_of_lt (chain_le_getLast x1 xs hch1) hlt
      have hx0 : x0 < x := lt_of_le_of_lt hx01 hx1
      simp only [interp]
      rw [if_neg (not_le.2 hx0), if_neg (not_le.2 hx1),
        ih ys x x1 y1 (by simpa using hlen) hch1 hlt,
        List.getLast_cons (List.cons_ne_nil y1 ys)]

/-- C10: a query outside the range of the independent axis is clamped to
the nearest endpoint's dependent value: below the first independent value
the first dependent value is returned, above the last the last, with no
extrapolation and no error. -/
theorem C10_out_of_range_clamps (x x0 y0 : ℚ) (xs ys : List ℚ)
    (hlen : xs.length = ys.length) (hchain : List.Chain' (· ≤ ·) (x0 :: xs)) :
    (x < x0 → interp x (x0 :: xs) (y0 :: ys) = y0) ∧
    ((x0 :: xs).getLast (List.cons_ne_nil x0 xs) < x →
      interp x (x0 :: xs) (y0 :: ys) = (y0 :: ys).getLast (List.cons_ne_nil y0 ys)) :=
  ⟨fun h => interp_clamp_low x x0 y0 xs ys hlen h.le,
    fun h => interp_clamp_high xs ys x x0 y0 hlen hchain h⟩

/-- Witness for C10 on the notebook's Mach table: a query below the table
returns the first pressure ratio, a query above it the last. -/
theorem C10_witness :
    (([1.71, 1.72, 1.73, 1.74] : List ℚ).length =
      ([0.19956, 0.19656, 0.19361, 0.19070] : List ℚ).length) ∧
    List.Chain' (· ≤ ·) ((1.70 : ℚ) :: [1.71, 1.72, 1.73, 1.74]) ∧
    interp 1 ((1.70 : ℚ) :: [1.71, 1.72, 1.73, 1.74])
      ((0.20259 : ℚ) :: [0.19956, 0.19656, 0.19361, 0.19070]) = 0.20259 ∧
    interp 9 ((1.70 : ℚ) :: [1.71, 1.72, 1.73, 1.74])
      ((0.20259 : ℚ) :: [0.19956, 0.19656, 0.19361, 0.19070]) = 0.19070 := by
  have h := C10_out_of_range_clamps 1 1.70 0.20259
    [1.71, 1.72, 1.73, 1.74] [0.19956, 0.19656, 0.19361, 0.19070]
    (by norm_num) (by norm_num [List.chain'_cons])
  have h' := C10_out_of_range_clamps 9 1.70 0.20259
    [1.71, 1.72, 1.73, 1.74] [0.19956, 0.19656, 0.19361, 0.19070]
    (by norm_num) (by norm_num [List.chain'_cons])
  refine ⟨by norm_num, by norm_num [List.chain'_cons], h.1 (by norm_num), ?_⟩
  have := h'.2 (by norm_num [List.getLast])
  simpa [List.getLast] using this

namespace SolveInterp

/-- Mach-number table of the interpolation cell (`machs`). -/
def machs : List ℚ := [1.70, 1.71, 1.72, 1.73, 1.74]

/-- Pressure-ratio table of the interpolation cell (`p_ratios`). -/
def p_ratios : List ℚ := [0.20259, 0.19956, 0.19656, 0.19361, 0.19070]

/-- The residual `fA` of the area-Mach equation, translated from the
notebook (the power is a real exponentiation, as in Python). -/
noncomputable def fA (M2 M1 Aratio gamma : ℝ) : ℝ :=
  Aratio - (M1/M2) *
    ((1 + ((gamma - 1)/2) * M2^2)/(1 + ((gamma - 1)/2) * M1^2)) ^ ((gamma + 1)/(2*(gamma - 1)))

/-- Modelled from the spec: the documented area-Mach equation, including the
entropy-change factor `e^(Δs/R)` that the notebook's markdown displays. -/
noncomputable def areaMachDocumented (M1 M2 Aratio gamma dsR : ℝ) : Prop :=
  Aratio = (M1/M2) *
    ((1 + ((gamma - 1)/2) * M2^2)/(1 + ((gamma - 1)/2) * M1^2)) ^ ((gamma + 1)/(2*(gamma - 1)))
    * Real.exp dsR

/-- The names bound by the cells of the solve/interpolation notebook that
precede the reverse-interpolation cell, in order of binding. -/
def definedNames : List String :=
  ["plt", "np", "optimize", "fA", "M1", "A_ratio", "gamma", "root", "machs", "p_ratios"]

/-- The names referenced by the reverse-interpolation cell
`np.interp(0.198, p_ratio[::-1], M[::-1])`, in evaluation order. -/
def reverseCellRefs : List String := ["np", "p_ratio", "M"]

/-- The first referenced name that is not bound in the environment. -/
def firstUndefined (env refs : List String) : Option String :=
  refs.find? (fun r => !env.contains r)

/-- Evaluating a cell's name references: the Python interpreter raises
`NameError` at the first unbound name, otherwise the cell proceeds. -/
def cellResult (env refs : List String) : Except String Unit :=
  match firstUndefined env refs with
  | some n => Except.error ("NameError: name " ++ n ++ " is not defined")
  | none => Except.ok ()

/-- At `gamma = 1.4` the exponent of the area-Mach relation is exactly 3,
so the residual is a rational function of its arguments. -/
theorem fA_gamma14 (M2 M1 Aratio : ℝ) :
    fA M2 M1 Aratio 1.4 =
      Aratio - (M1/M2) *
        ((1 + ((1.4 - 1)/2) * M2^2)/(1 + ((1.4 - 1)/2) * M1^2))^(3:ℕ) := by
  unfold fA
  rw [show ((1.4 + 1)/(2*(1.4 - 1)) : ℝ) = ((3:ℕ):ℝ) by norm_num, Real.rpow_natCast]

theorem fA_cubic_key (x y : ℝ) (hx : 1 ≤ x) (hxy : x < y) :
    y*(5 + x^2)^3 < x*(5 + y^2)^3 := by
  have hy : (1:ℝ) < y := lt_of_le_of_lt hx hxy
  have hx0 : (0:ℝ) < x := lt_of_lt_of_le one_pos hx
  have hy0 : (0:ℝ) < y := lt_trans hx0 hxy
  have hxy' : (1:ℝ) ≤ x*y := by nlinarith
  have hx2 : (1:ℝ) ≤ x^2 := by nlinarith
  have hy2 : (1:ℝ) < y^2 := by nlinarith
  have hs3 : (3:ℝ) < x^2 + x*y + y^2 := by nlinarith
  have hx4 : (1:ℝ) ≤ x^4 := by nlinarith
  have hx3y : (1:ℝ) ≤ x^3*y := by nlinarith [mul_le_mul hx2 hxy' (by norm_num) (by positivity)]
  have hx2y2 : (1:ℝ) ≤ x^2*y^2 := by nlinarith [mul_le_mul hxy' hxy' (by norm_num) (by positivity)]
  have hxy3 : (1:ℝ) ≤ x*y^3 := by nlinarith [mul_le_mul hxy' hy2.le (by norm_num) (by positivity)]
  have hy4 : (1:ℝ) ≤ y^4 := by nlinarith
  have hs5 : (5:ℝ) ≤ x^4 + x^3*y + x^2*y^2 + x*y^3 + y^4 := by linarith
  have h3 : (3:ℝ) < (x*y) * (x^2 + x*y + y^2) :=
    lt_of_lt_of_le hs3 (le_mul_of_one_le_left (by nlinarith) hxy')
  have h5 : (5:ℝ) ≤ (x*y) * (x^4 + x^3*y + x^2*y^2 + x*y^3 + y^4) :=
    le_trans hs5 (le_mul_of_one_le_left (by linarith) hxy')
  have hB : 0 < -125 + 75*(x*y) + 15*((x*y)*(x^2 + x*y + y^2)) +
      (x*y)*(x^4 + x^3*y + x^2*y^2 + x*y^3 + y^4) := by nlinarith
  nlinarith [mul_pos (sub_pos.2 hxy) hB]

/-- On the supersonic side the worked example's residual is strictly
decreasing in `M2`. -/
theorem fA_example_strictAnti (x y : ℝ) (hx : 1 ≤ x) (hxy : x < y) :
    fA y 0.5 2.5 1.4 < fA x 0.5 2.5 1.4 := by
  have hx0 : (0:ℝ) < x := lt_of_lt_of_le one_pos hx
  have hy0 : (0:ℝ) < y := lt_trans hx0 hxy
  rw [fA_gamma14, fA_gamma14]
  have key := fA_cubic_key x y hx hxy
  have h1 : (0.5/x) * ((1 + ((1.4 - 1)/2) * x^2)/(1 + ((1.4 - 1)/2) * 0.5^2))^(3:ℕ) <
      (0.5/y) * ((1 + ((1.4 - 1)/2) * y^2)/(1 + ((1.4 - 1)/2) * 0.5^2))^(3:ℕ) := by
    have e1 : (0.5/x) * ((1 + ((1.4 - 1)/2) * x^2)/(1 + ((1.4 - 1)/2) * 0.5^2))^(3:ℕ) =
        (0.5 * ((1 + ((1.4 - 1)/2) * x^2)/(1 + ((1.4 - 1)/2) * 0.5^2))^(3:ℕ)) / x := by
      ring
    have e2 : (0.5/y) * ((1 + ((1.4 - 1)/2) * y^2)/(1 + ((1.4 - 1)/2) * 0.5^2))^(3:ℕ) =
        (0.5 * ((1 + ((1.4 - 1)/2) * y^2)/(1 + ((1.4 - 1)/2) * 0.5^2))^(3:ℕ)) / y := by
      ring
    rw [e1, e2, div_lt_div_iff₀ hx0 hy0]
    have g1 : 0.5 * ((1 + ((1.4 - 1)/2) * x^2)/(1 + ((1.4 - 1)/2) * 0.5^2))^(3:ℕ) * y =
        (0.5/5.25^3) * (y * (5 + x^2)^3) := by ring
    have g2 : 0.5 * ((1 + ((1.4 - 1)/2) * y^2)/(1 + ((1.4 - 1)/2) * 0.5^2))^(3:ℕ) * x =
        (0.5/5.25^3) * (x * (5 + y^2)^3) := by ring
    rw [g1, g2]
    exact mul_lt_mul_of_pos_left key (by norm_num)
  linarith

theorem fA_bracket_sign_change :
    0 < fA 1.0001 0.5 2.5 1.4 ∧ fA 10 0.5 2.5 1.4 < 0 := by
  constructor
  · rw [fA_gamma14]; norm_num
  · rw [fA_gamma14]; norm_num

/-- For a ratio of specific heats above one, the residual is continuous in
`M2` on any bracket of positive Mach numbers. -/
theorem fA_continuousOn (M1 Aratio gamma a b : ℝ) (hgamma : 1 < gamma) (ha : 0 < a) :
    ContinuousOn (fun M2 => fA M2 M1 Aratio gamma) (Set.Icc a b) := by
  intro x hx
  have hx0 : x ≠ 0 := ne_of_gt (lt_of_lt_of_le ha hx.1)
  have hk : 0 < (gamma - 1)/2 := by linarith
  have hd : 0 < 1 + ((gamma - 1)/2) * M1^2 := by nlinarith [sq_nonneg M1]
  have hn : 0 < 1 + ((gamma - 1)/2) * x^2 := by nlinarith [sq_nonneg x]
  have hbase : 0 < (1 + ((gamma - 1)/2) * x^2)/(1 + ((gamma - 1)/2) * M1^2) := div_pos hn hd
  apply ContinuousAt.continuousWithinAt
  unfold fA
  apply ContinuousAt.sub continuousAt_const
  apply ContinuousAt.mul
  · exact ContinuousAt.div continuousAt_const continuousAt_id hx0
  · have h1 : ContinuousAt
        (fun y : ℝ => (1 + ((gamma - 1)/2) * y^2)/(1 + ((gamma - 1)/2) * M1^2)) x := by
      fun_prop
    exact h1.rpow_const (Or.inl (ne_of_gt hbase))

end SolveInterp

/-! ## Elementary Taylor bounds for the trigonometric evaluations

The oblique-shock notebook evaluates sines, cosines, tangents, arctangents
and square roots at concrete angles.  To certify its printed values we
derive the classical alternating-series bounds for sin and cos on the
nonnegative axis by iterated monotonicity. -/

theorem mono_aux (f f' : ℝ → ℝ) (hder : ∀ y, HasDerivAt f (f' y) y)
    (hnn : ∀ y, 0 ≤ y → 0 ≤ f' y) (x : ℝ) (hx : 0 ≤ x) : f 0 ≤ f x := by
  have hmono : MonotoneOn f (Set.Ici 0) := by
    apply monotoneOn_of_deriv_nonneg (convex_Ici 0)
    · exact fun y _ => (hder y).continuousAt.continuousWithinAt
    · intro y _
      exact (hder y).differentiableAt.differentiableWithinAt
    · intro y hy
      rw [interior_Ici] at hy
      rw [(hder y).deriv]
      exact hnn y (le_of_lt hy)
  exact hmono Set.left_mem_Ici hx hx

theorem sin_le_arg (x : ℝ) (hx : 0 ≤ x) : Real.sin x ≤ x := by
  rcases eq_or_lt_of_le hx with h | h
  · rw [← h]; simp
  · exact (Real.sin_lt h).le

theorem cos_ge_T2 (x : ℝ) (hx : 0 ≤ x) : 1 - x^2/2 ≤ Real.cos x := by
  have h := mono_aux (fun y => Real.cos y - (1 - y^2/2)) (fun y => y - Real.sin y)
    (fun y => by
      have h1 := ((hasDerivAt_pow 2 y).div_const 2).const_sub 1
      have h2 := (Real.hasDerivAt_cos y).sub h1
      convert h2 using 1
      push_cast
      ring)
    (fun y hy => by dsimp only; linarith [sin_le_arg y hy]) x hx
  simp only [Real.cos_zero] at h
  linarith

theorem sin_ge_T3 (x : ℝ) (hx : 0 ≤ x) : x - x^3/6 ≤ Real.sin x := by
  have h := mono_aux (fun y => Real.sin y - (y - y^3/6)) (fun y => Real.cos y - (1 - y^2/2))
    (fun y => by
      have h1 := (hasDerivAt_id y).sub ((hasDerivAt_pow 3 y).div_const 6)
      have h2 := (Real.hasDerivAt_sin y).sub h1
      convert h2 using 1
      push_cast
      ring)
    (fun y hy => by dsimp only; linarith [cos_ge_T2 y hy]) x hx
  simp only [Real.sin_zero] at h
  linarith

theorem cos_le_T4 (x : ℝ) (hx : 0 ≤ x) : Real.cos x ≤ 1 - x^2/2 + x^4/24 := by
  have h := mono_aux (fun y => (1 - y^2/2 + y^4/24) - Real.cos y)
    (fun y => Real.sin y - (y - y^3/6))
    (fun y => by
      have h1 := (((hasDerivAt_pow 2 y).div_const 2).const_sub 1).add
        ((hasDerivAt_pow 4 y).div_const 24)
      have h2 := h1.sub (Real.hasDerivAt_cos y)
      convert h2 using 1
      push_cast
      ring)
    (fun y hy => by dsimp only; linarith [sin_ge_T3 y hy]) x hx
  simp only [Real.cos_zero] at h
  linarith

theorem sin_le_T5 (x : ℝ) (hx : 0 ≤ x) : Real.sin x ≤ x - x^3/6 + x^5/120 := by
  have h := mono_aux (fun y => (y - y^3/6 + y^5/120) - Real.sin y)
    (fun y => (1 - y^2/2 + y^4/24) - Real.cos y)
    (fun y => by
      have h1 := ((hasDerivAt_id y).sub ((hasDerivAt_pow 3 y).div_const 6)).add
        ((hasDerivAt_pow 5 y).div_const 120)
      have h2 := h1.sub (Real.hasDerivAt_sin y)
      convert h2 using 1
      push_cast
      ring)
    (fun y hy => by dsimp only; linarith [cos_le_T4 y hy]) x hx
  simp only [Real.sin_zero] at h
  linarith

theorem cos_ge_T6 (x : ℝ) (hx : 0 ≤ x) :
    1 - x^2/2 + x^4/24 - x^6/720 ≤ Real.cos x := by
  have h := mono_aux (fun y => Real.cos y - (1 - y^2/2 + y^4/24 - y^6/720))
    (fun y => (y - y^3/6 + y^5/120) - Real.sin y)
    (fun y => by
      have h1 := ((((hasDerivAt_pow 2 y).div_const 2).const_sub 1).add
        ((hasDerivAt_pow 4 y).div_const 24)).sub ((hasDerivAt_pow 6 y).div_const 720)
      have h2 := (Real.hasDerivAt_cos y).sub h1
      convert h2 using 1
      push_cast
      ring)
    (fun y hy => by dsimp only; linarith [sin_le_T5 y hy]) x hx
  simp only [Real.cos_zero] at h
  linarith

theorem sin_ge_T7 (x : ℝ) (hx : 0 ≤ x) :
    x - x^3/6 + x^5/120 - x^7/5040 ≤ Real.sin x := by
  have h := mono_aux (fun y => Real.sin y - (y - y^3/6 + y^5/120 - y^7/5040))
    (fun y => Real.cos y - (1 - y^2/2 + y^4/24 - y^6/720))
    (fun y => by
      have h1 := (((hasDerivAt_id y).sub ((hasDerivAt_pow 3 y).div_const 6)).add
        ((hasDerivAt_pow 5 y).div_const 120)).sub ((hasDerivAt_pow 7 y).div_const 5040)
      have h2 := (Real.hasDerivAt_sin y).sub h1
      convert h2 using 1
      push_cast
      ring)
    (fun y hy => by dsimp only; linarith [cos_ge_T6 y hy]) x hx
  simp only [Real.sin_zero] at h
  linarith

theorem cos_le_T8 (x : ℝ) (hx : 0 ≤ x) :
    Real.cos x ≤ 1 - x^2/2 + x^4/24 - x^6/720 + x^8/40320 := by
  have h := mono_aux (fun y => (1 - y^2/2 + y^4/24 - y^6/720 + y^8/40320) - Real.cos y)
    (fun y => Real.sin y - (y - y^3/6 + y^5/120 - y^7/5040))
    (fun y => by
      have h1 := (((((hasDerivAt_pow 2 y).div_const 2).const_sub 1).add
        ((hasDerivAt_pow 4 y).div_const 24)).sub ((hasDerivAt_pow 6 y).div_const 720)).add
        ((hasDerivAt_pow 8 y).div_const 40320)
      have h2 := h1.sub (Real.hasDerivAt_cos y)
      convert h2 using 1
      push_cast
      ring)
    (fun y hy => by dsimp only; linarith [sin_ge_T7 y hy]) x hx
  simp only [Real.cos_zero] at h
  linarith

theorem sin_le_T9 (x : ℝ) (hx : 0 ≤ x) :
    Real.sin x ≤ x - x^3/6 + x^5/120 - x^7/5040 + x^9/362880 := by
  have h := mono_aux (fun y => (y - y^3/6 + y^5/120 - y^7/5040 + y^9/362880) - Real.sin y)
    (fun y => (1 - y^2/2 + y^4/24 - y^6/720 + y^8/40320) - Real.cos y)
    (fun y => by
      have h1 := ((((hasDerivAt_id y).sub ((hasDerivAt_pow 3 y).div_const 6)).add
        ((hasDerivAt_pow 5 y).div_const 120)).sub ((hasDerivAt_pow 7 y).div_const 5040)).add
        ((hasDerivAt_pow 9 y).div_const 362880)
      have h2 := h1.sub (Real.hasDerivAt_sin y)
      convert h2 using 1
      push_cast
      ring)
    (fun y hy => by dsimp only; linarith [cos_le_T8 y hy]) x hx
  simp only [Real.sin_zero] at h
  linarith

/-- Interval bounds for sin on an interval inside `[0, 1.5]`, by
monotonicity and the Taylor bounds at the rational endpoints. -/
theorem sin_interval {x lo hi : ℝ} (h0 : 0 ≤ lo) (hl : lo ≤ x) (hh : x ≤ hi)
    (h15 : hi ≤ 1.5) :
    lo - lo^3/6 + lo^5/120 - lo^7/5040 ≤ Real.sin x ∧
    Real.sin x ≤ hi - hi^3/6 + hi^5/120 - hi^7/5040 + hi^9/362880 := by
  have hpi : (3:ℝ) < Real.pi := Real.pi_gt_three
  have h1 : Real.sin lo ≤ Real.sin x :=
    Real.sin_le_sin_of_le_of_le_pi_div_two (by linarith) (by linarith) hl
  have h2 : Real.sin x ≤ Real.sin hi :=
    Real.sin_le_sin_of_le_of_le_pi_div_two (by linarith) (by linarith) hh
  exact ⟨le_trans (sin_ge_T7 lo h0) h1,
    le_trans h2 (sin_le_T9 hi (by linarith))⟩

/-- Interval bounds for cos on an interval inside `[0, 1.5]`. -/
theorem cos_interval {x lo hi : ℝ} (h0 : 0 ≤ lo) (hl : lo ≤ x) (hh : x ≤ hi)
    (h15 : hi ≤ 1.5) :
    1 - hi^2/2 + hi^4/24 - hi^6/720 ≤ Real.cos x ∧
    Real.cos x ≤ 1 - lo^2/2 + lo^4/24 - lo^6/720 + lo^8/40320 := by
  have hpi : (3:ℝ) < Real.pi := Real.pi_gt_three
  have h1 : Real.cos hi ≤ Real.cos x :=
    Real.cos_le_cos_of_nonneg_of_le_pi (by linarith) (by linarith) hh
  have h2 : Real.cos x ≤ Real.cos lo :=
    Real.cos_le_cos_of_nonneg_of_le_pi h0 (by linarith) hl
  exact ⟨le_trans (cos_ge_T6 hi (by linarith)) h1,
    le_trans h2 (cos_le_T8 lo h0)⟩

theorem mul_bounds {a b al au bl bu : ℝ} (h1 : al ≤ a) (h2 : a ≤ au)
    (h3 : bl ≤ b) (h4 : b ≤ bu) (h5 : 0 ≤ al) (h6 : 0 ≤ bl) :
    al*bl ≤ a*b ∧ a*b ≤ au*bu := by
  constructor
  · exact mul_le_mul h1 h3 h6 (le_trans h5 h1)
  · exact mul_le_mul h2 h4 (le_trans h6 h3) (le_trans (le_trans h5 h1) h2)

theorem div_bounds {a b al au bl bu : ℝ} (h1 : al ≤ a) (h2 : a ≤ au)
    (h3 : bl ≤ b) (h4 : b ≤ bu) (h5 : 0 ≤ al) (h6 : 0 < bl) :
    al/bu ≤ a/b ∧ a/b ≤ au/bl := by
  have hb : 0 < b := lt_of_lt_of_le h6 h3
  constructor
  · exact div_le_div₀ (le_trans h5 h1) h1 hb h4
  · exact div_le_div₀ (le_trans (le_trans h5 h1) h2) h2 h6 h3

/-! ## The oblique-shock reflection notebook -/

namespace ObliqueShock

/-- Degrees to radians (`np.radians`). -/
noncomputable def radians (d : ℝ) : ℝ :=
  d * Real.pi / 180

/-- Radians to degrees (`np.degrees`). -/
noncomputable def degrees (r : ℝ) : ℝ :=
  r * 180 / Real.pi

/-- Ratio of specific heats of the example. -/
noncomputable def gamma : ℝ := 1.4

/-- Upstream Mach number of the example. -/
noncomputable def M1 : ℝ := 2.2

/-- Incident shock angle, 35 degrees converted to radians. -/
noncomputable def theta : ℝ := radians 35.0

/-- Deflection angle of the first oblique shock, from the
theta-beta-M relation. -/
noncomputable def delta : ℝ :=
  Real.arctan (2 * (1 / Real.tan theta) * (M1^2 * Real.sin theta^2 - 1) /
    (M1^2 * (gamma + Real.cos (2*theta)) + 2))

/-- Normal component of the upstream Mach number. -/
noncomputable def M1n : ℝ := M1 * Real.sin theta

/-- Normal Mach number downstream of the first shock, from the
normal-shock relation (the code uses `gamma` throughout). -/
noncomputable def M2n : ℝ :=
  Real.sqrt ((M1n^2 + (2/(gamma - 1))) / (M1n^2 * (2*gamma)/(gamma - 1) - 1))

/-- Mach number between the two shocks. -/
noncomputable def M2 : ℝ := M2n / Real.sin (theta - delta)

/-- Residual of the deflection relation solved for the reflected shock
angle. -/
noncomputable def oblique (theta M1 delta gamma : ℝ) : ℝ :=
  Real.tan delta - 2 * (1 / Real.tan theta) * (M1^2 * Real.sin theta^2 - 1) /
    (M1^2 * (gamma + Real.cos (2*theta)) + 2)

/-- Reflected shock angle: the bracketed root solve of `oblique` on the
weak-shock bracket [0.0001 degrees, 45 degrees]. -/
noncomputable def theta_2 : ℝ :=
  bisectLimit (fun t => oblique t M2 delta gamma) (radians 0.0001) (radians 45.0)

/-- Angle of the reflected shock with respect to the wall. -/
noncomputable def beta : ℝ := theta_2 - delta

/-- Normal component of the Mach number entering the reflected shock
(printed as `M2n` by the notebook). -/
noncomputable def M3n : ℝ := M2 * Real.sin theta_2

theorem theta_mem : (3.141592*35/180:ℝ) ≤ theta ∧ theta ≤ (3.141593*35/180:ℝ) := by
  have h1 := Real.pi_gt_d6
  have h2 := Real.pi_lt_d6
  unfold theta radians
  constructor <;> nlinarith

theorem sin_theta_bounds :
    (0.57357629:ℝ) ≤ Real.sin theta ∧ Real.sin theta ≤ 0.5735765 := by
  obtain ⟨h1, h2⟩ := theta_mem
  have h := sin_interval (by norm_num) h1 h2 (by norm_num)
  exact ⟨le_trans (by norm_num) h.1, le_trans h.2 (by norm_num)⟩

theorem cos_theta_bounds :
    (0.81915152:ℝ) ≤ Real.cos theta ∧ Real.cos theta ≤ 0.81915212 := by
  obtain ⟨h1, h2⟩ := theta_mem
  have h := cos_interval (by norm_num) h1 h2 (by norm_num)
  exact ⟨le_trans (by norm_num) h.1, le_trans h.2 (by norm_num)⟩

theorem En_bounds :
    (0.59231044:ℝ) ≤ M1^2 * Real.sin theta^2 - 1 ∧
    M1^2 * Real.sin theta^2 - 1 ≤ 0.59231161 := by
  obtain ⟨hs1, hs2⟩ := sin_theta_bounds
  have hM1 : M1^2 = (4.84:ℝ) := by unfold M1; norm_num
  rw [hM1]
  constructor
  · nlinarith [mul_le_mul hs1 hs1 (by norm_num) (by linarith)]
  · nlinarith [mul_le_mul hs2 hs2 (by linarith) (by norm_num)]

theorem Ed_bounds :
    (10.43136915:ℝ) ≤ M1^2 * (gamma + Real.cos (2*theta)) + 2 ∧
    M1^2 * (gamma + Real.cos (2*theta)) + 2 ≤ 10.43137874 := by
  obtain ⟨hc1, hc2⟩ := cos_theta_bounds
  have hM1 : M1^2 = (4.84:ℝ) := by unfold M1; norm_num
  have hg : gamma = (1.4:ℝ) := rfl
  have hc2t : Real.cos (2*theta) = 2 * Real.cos theta^2 - 1 := Real.cos_two_mul theta
  rw [hM1, hg, hc2t]
  constructor
  · nlinarith [mul_le_mul hc1 hc1 (by norm_num) (by linarith)]
  · nlinarith [mul_le_mul hc2 hc2 (by linarith) (by norm_num)]

/-- Numeric bounds on the argument of the arctangent defining `delta`:
the tangent of the deflection angle. -/
theorem E_bounds :
    (0.16218495:ℝ) ≤ 2 * (1 / Real.tan theta) * (M1^2 * Real.sin theta^2 - 1) /
      (M1^2 * (gamma + Real.cos (2*theta)) + 2) ∧
    2 * (1 / Real.tan theta) * (M1^2 * Real.sin theta^2 - 1) /
      (M1^2 * (gamma + Real.cos (2*theta)) + 2) ≤ 0.16218561 := by
  obtain ⟨hs1, hs2⟩ := sin_theta_bounds
  obtain ⟨hc1, hc2⟩ := cos_theta_bounds
  obtain ⟨hn1, hn2⟩ := En_bounds
  obtain ⟨hd1, hd2⟩ := Ed_bounds
  have hspos : (0:ℝ) < Real.sin theta := by linarith
  have hcpos : (0:ℝ) < Real.cos theta := by linarith
  have hdpos : (0:ℝ) < M1^2 * (gamma + Real.cos (2*theta)) + 2 := by linarith
  have hrw : 2 * (1 / Real.tan theta) * (M1^2 * Real.sin theta^2 - 1) /
      (M1^2 * (gamma + Real.cos (2*theta)) + 2) =
      (2 * Real.cos theta * (M1^2 * Real.sin theta^2 - 1)) /
      (Real.sin theta * (M1^2 * (gamma + Real.cos (2*theta)) + 2)) := by
    rw [Real.tan_eq_sin_div_cos, one_div_div]
    field_simp
  rw [hrw]
  have hnum1 : (2*0.81915152*0.59231044:ℝ) ≤
      2 * Real.cos theta * (M1^2 * Real.sin theta^2 - 1) := by
    nlinarith [mul_le_mul hc1 hn1 (by norm_num) (by linarith)]
  have hnum2 : 2 * Real.cos theta * (M1^2 * Real.sin theta^2 - 1) ≤
      (2*0.81915212*0.59231161:ℝ) := by
    nlinarith [mul_le_mul hc2 hn2 (by linarith) (by norm_num)]
  have hden1 : (0.57357629*10.43136915:ℝ) ≤
      Real.sin theta * (M1^2 * (gamma + Real.cos (2*theta)) + 2) := by
    nlinarith [mul_le_mul hs1 hd1 (by norm_num) (by linarith)]
  have hden2 : Real.sin theta * (M1^2 * (gamma + Real.cos (2*theta)) + 2) ≤
      (0.5735765*10.43137874:ℝ) := by
    nlinarith [mul_le_mul hs2 hd2 (by linarith) (by norm_num)]
  have h := div_bounds hnum1 hnum2 hden1 hden2 (by norm_num) (by norm_num)
  exact ⟨le_trans (by norm_num) h.1, le_trans h.2 (by norm_num)⟩

/-- Numeric bounds on the deflection angle. -/
theorem delta_bounds : (0.160773:ℝ) ≤ delta ∧ delta ≤ 0.160797 := by
  have hE := E_bounds
  have hpi3 : (3:ℝ) < Real.pi := Real.pi_gt_three
  constructor
  · have htan : Real.tan 0.160773 < 0.16218495 := by
      rw [Real.tan_eq_sin_div_cos]
      have hs := sin_le_T9 0.160773 (by norm_num)
      have hc := cos_ge_T6 0.160773 (by norm_num)
      have hcpos : (0:ℝ) < Real.cos 0.160773 := by nlinarith
      rw [div_lt_iff₀ hcpos]
      nlinarith
    have harc : Real.arctan (Real.tan 0.160773) = 0.160773 :=
      Real.arctan_tan (by norm_num; linarith) (by norm_num; linarith)
    calc (0.160773:ℝ) = Real.arctan (Real.tan 0.160773) := harc.symm
      _ ≤ delta := (Real.arctan_strictMono (lt_of_lt_of_le htan hE.1)).le
  · have htan : (0.16218561:ℝ) < Real.tan 0.160797 := by
      rw [Real.tan_eq_sin_div_cos]
      have hs := sin_ge_T7 0.160797 (by norm_num)
      have hc := cos_le_T8 0.160797 (by norm_num)
      have hcpos : (0:ℝ) < Real.cos 0.160797 := by
        have := cos_ge_T6 0.160797 (by norm_num)
        nlinarith
      rw [lt_div_iff₀ hcpos]
      nlinarith
    have harc : Real.arctan (Real.tan 0.160797) = 0.160797 :=
      Real.arctan_tan (by norm_num; linarith) (by norm_num; linarith)
    calc delta ≤ Real.arctan (Real.tan 0.160797) :=
        (Real.arctan_strictMono (lt_of_le_of_lt hE.2 htan)).le
      _ = 0.160797 := harc

theorem sin_theta_sub_delta_bounds :
    (0.43502686:ℝ) ≤ Real.sin (theta - delta) ∧
    Real.sin (theta - delta) ≤ 0.43504865 := by
  obtain ⟨ht1, ht2⟩ := theta_mem
  obtain ⟨hd1, hd2⟩ := delta_bounds
  have hl : (3.141592*35/180 - 0.160797:ℝ) ≤ theta - delta := by linarith
  have hh : theta - delta ≤ (3.141593*35/180 - 0.160773:ℝ) := by linarith
  have h := sin_interval (by norm_num) hl hh (by norm_num)
  exact ⟨le_trans (by norm_num) h.1, le_trans h.2 (by norm_num)⟩

theorem M1n_bounds : (1.26186783:ℝ) ≤ M1n ∧ M1n ≤ 1.2618683 := by
  obtain ⟨hs1, hs2⟩ := sin_theta_bounds
  unfold M1n M1
  constructor <;> nlinarith

theorem radicand_bounds :
    (0.64973316:ℝ) ≤ (M1n^2 + (2/(gamma - 1))) / (M1n^2 * (2*gamma)/(gamma - 1) - 1) ∧
    (M1n^2 + (2/(gamma - 1))) / (M1n^2 * (2*gamma)/(gamma - 1) - 1) ≤ 0.64973382 := by
  obtain ⟨h1, h2⟩ := M1n_bounds
  have hg : gamma = (1.4:ℝ) := rfl
  rw [hg]
  have hsq1 : (1.26186783^2:ℝ) ≤ M1n^2 := by nlinarith
  have hsq2 : M1n^2 ≤ (1.2618683^2:ℝ) := by nlinarith
  have h := div_bounds
    (show (1.26186783^2+5:ℝ) ≤ M1n^2 + 2/((1.4:ℝ) - 1) by norm_num; linarith)
    (show M1n^2 + 2/((1.4:ℝ) - 1) ≤ (1.2618683^2+5:ℝ) by norm_num; linarith)
    (show (7*1.26186783^2-1:ℝ) ≤ M1n^2 * (2*(1.4:ℝ))/((1.4:ℝ) - 1) - 1 by
      norm_num; nlinarith)
    (show M1n^2 * (2*(1.4:ℝ))/((1.4:ℝ) - 1) - 1 ≤ (7*1.2618683^2-1:ℝ) by
      norm_num; nlinarith)
    (by norm_num) (by norm_num)
  exact ⟨le_trans (by norm_num) h.1, le_trans h.2 (by norm_num)⟩

theorem M2n_bounds : (0.80606027:ℝ) ≤ M2n ∧ M2n ≤ 0.80606069 := by
  obtain ⟨h1, h2⟩ := radicand_bounds
  unfold M2n
  constructor
  · exact (Real.le_sqrt (by norm_num) (by linarith)).2 (by norm_num; linarith)
  · calc Real.sqrt ((M1n^2 + (2/(gamma - 1))) / (M1n^2 * (2*gamma)/(gamma - 1) - 1)) ≤
        Real.sqrt (0.80606069^2) := Real.sqrt_le_sqrt (by norm_num; linarith)
      _ = 0.80606069 := Real.sqrt_sq (by norm_num)

theorem M2_bounds : (1.85280489:ℝ) ≤ M2 ∧ M2 ≤ 1.85289867 := by
  obtain ⟨h1, h2⟩ := M2n_bounds
  obtain ⟨h3, h4⟩ := sin_theta_sub_delta_bounds
  unfold M2
  have h := div_bounds h1 h2 h3 h4 (by norm_num) (by norm_num)
  exact ⟨le_trans (by norm_num) h.1, le_trans h.2 (by norm_num)⟩

theorem M2sq_bounds : (3.43288596:ℝ) ≤ M2^2 ∧ M2^2 ≤ 3.43323349 := by
  obtain ⟨h1, h2⟩ := M2_bounds
  constructor <;> nlinarith

/-- The tangent of the deflection angle is the defining expression. -/
theorem tan_delta_eq :
    Real.tan delta = 2 * (1 / Real.tan theta) * (M1^2 * Real.sin theta^2 - 1) /
      (M1^2 * (gamma + Real.cos (2*theta)) + 2) := by
  unfold delta
  exact Real.tan_arctan _

theorem sin_left_bounds :
    (0.66515381:ℝ) ≤ Real.sin 0.7277 ∧ Real.sin 0.7277 ≤ 0.66515398 :=
  ⟨le_trans (by norm_num) (sin_ge_T7 0.7277 (by norm_num)),
    le_trans (sin_le_T9 0.7277 (by norm_num)) (by norm_num)⟩

theorem cos_left_bounds :
    (0.74670429:ℝ) ≤ Real.cos 0.7277 ∧ Real.cos 0.7277 ≤ 0.74670625 :=
  ⟨le_trans (by norm_num) (cos_ge_T6 0.7277 (by norm_num)),
    le_trans (cos_le_T8 0.7277 (by norm_num)) (by norm_num)⟩

theorem sin_right_bounds :
    (0.66582557:ℝ) ≤ Real.sin 0.7286 ∧ Real.sin 0.7286 ≤ 0.66582574 :=
  ⟨le_trans (by norm_num) (sin_ge_T7 0.7286 (by norm_num)),
    le_trans (sin_le_T9 0.7286 (by norm_num)) (by norm_num)⟩

theorem cos_right_bounds :
    (0.74610533:ℝ) ≤ Real.cos 0.7286 ∧ Real.cos 0.7286 ≤ 0.74610731 :=
  ⟨le_trans (by norm_num) (cos_ge_T6 0.7286 (by norm_num)),
    le_trans (cos_le_T8 0.7286 (by norm_num)) (by norm_num)⟩

set_option maxHeartbeats 1000000 in
theorem oblique_pos_at_left : 0 < oblique 0.7277 M2 delta gamma := by
  obtain ⟨hm1, hm2⟩ := M2sq_bounds
  have hE := E_bounds
  obtain ⟨hs1, hs2⟩ := sin_left_bounds
  obtain ⟨hc1, hc2⟩ := cos_left_bounds
  have hspos : (0:ℝ) < Real.sin 0.7277 := by linarith
  have hcpos : (0:ℝ) < Real.cos 0.7277 := by linarith
  have hg : gamma = (1.4:ℝ) := rfl
  have hc2t : Real.cos (2*(0.7277:ℝ)) = 2*Real.cos 0.7277^2 - 1 := Real.cos_two_mul _
  have hM2nn : (0:ℝ) ≤ M2^2 := sq_nonneg M2
  have hss1 : (0.66515381*0.66515381:ℝ) ≤ Real.sin 0.7277 * Real.sin 0.7277 :=
    mul_le_mul hs1 hs1 (by norm_num) (by linarith)
  have hss2 : Real.sin 0.7277 * Real.sin 0.7277 ≤ (0.66515398*0.66515398:ℝ) :=
    mul_le_mul hs2 hs2 (by linarith) (by norm_num)
  have hgn1 : (0.51881033:ℝ) ≤ M2^2 * Real.sin 0.7277^2 - 1 := by
    nlinarith [mul_le_mul hm1 hss1 (by norm_num) hM2nn]
  have hgn2 : M2^2 * Real.sin 0.7277^2 - 1 ≤ 0.51896487 := by
    nlinarith [mul_le_mul hm2 hss2 (mul_nonneg hspos.le hspos.le) (by norm_num)]
  have hb1 : (0.4 + 2*(0.74670429*0.74670429):ℝ) ≤ 1.4 + (2*Real.cos 0.7277^2 - 1) := by
    nlinarith [mul_le_mul hc1 hc1 (by norm_num) (by linarith)]
  have hb2 : 1.4 + (2*Real.cos 0.7277^2 - 1) ≤ (0.4 + 2*(0.74670625*0.74670625):ℝ) := by
    nlinarith [mul_le_mul hc2 hc2 (by linarith) (by norm_num)]
  have hgd1 : (7.20128427:ℝ) ≤ M2^2 * (gamma + Real.cos (2*(0.7277:ℝ))) + 2 := by
    rw [hg, hc2t]
    nlinarith [mul_le_mul hm1 hb1 (by norm_num) hM2nn]
  have hgd2 : M2^2 * (gamma + Real.cos (2*(0.7277:ℝ))) + 2 ≤ 7.20183093 := by
    rw [hg, hc2t]
    nlinarith [mul_le_mul hm2 hb2 (le_trans (by norm_num) hb1) (by norm_num)]
  have hgdpos : (0:ℝ) < M2^2 * (gamma + Real.cos (2*(0.7277:ℝ))) + 2 := by linarith
  unfold oblique
  rw [tan_delta_eq]
  have hrw : 2 * (1/Real.tan 0.7277) * (M2^2 * Real.sin 0.7277^2 - 1) /
      (M2^2 * (gamma + Real.cos (2*(0.7277:ℝ))) + 2) =
      (2*Real.cos 0.7277*(M2^2 * Real.sin 0.7277^2 - 1)) /
      (Real.sin 0.7277 * (M2^2 * (gamma + Real.cos (2*(0.7277:ℝ))) + 2)) := by
    rw [Real.tan_eq_sin_div_cos, one_div_div]
    field_simp
  rw [hrw]
  have hnum2 : 2*Real.cos 0.7277*(M2^2 * Real.sin 0.7277^2 - 1) ≤
      (2*0.74670625*0.51896487:ℝ) := by
    nlinarith [mul_le_mul hc2 hgn2 (by linarith) (by norm_num)]
  have hden1 : (0.66515381*7.20128427:ℝ) ≤
      Real.sin 0.7277 * (M2^2 * (gamma + Real.cos (2*(0.7277:ℝ))) + 2) := by
    nlinarith [mul_le_mul hs1 hgd1 (by norm_num) (by linarith)]
  have hnum1 : (2*0.74670429*0.51881033:ℝ) ≤
      2*Real.cos 0.7277*(M2^2 * Real.sin 0.7277^2 - 1) := by
    nlinarith [mul_le_mul hc1 hgn1 (by norm_num) (by linarith)]
  have hden2 : Real.sin 0.7277 * (M2^2 * (gamma + Real.cos (2*(0.7277:ℝ))) + 2) ≤
      (0.66515398*7.20183093:ℝ) := by
    nlinarith [mul_le_mul hs2 hgd2 (by linarith) (by norm_num)]
  have hG := div_bounds hnum1 hnum2 hden1 hden2 (by norm_num) (by norm_num)
  have hfinal : (2*0.74670625*0.51896487:ℝ)/(0.66515381*7.20128427) < 0.16218495 := by
    norm_num
  linarith [hG.2, hE.1]

set_option maxHeartbeats 1000000 in
theorem oblique_neg_at_right : oblique 0.7286 M2 delta gamma < 0 := by
  obtain ⟨hm1, hm2⟩ := M2sq_bounds
  have hE := E_bounds
  obtain ⟨hs1, hs2⟩ := sin_right_bounds
  obtain ⟨hc1, hc2⟩ := cos_right_bounds
  have hspos : (0:ℝ) < Real.sin 0.7286 := by linarith
  have hcpos : (0:ℝ) < Real.cos 0.7286 := by linarith
  have hg : gamma = (1.4:ℝ) := rfl
  have hc2t : Real.cos (2*(0.7286:ℝ)) = 2*Real.cos 0.7286^2 - 1 := Real.cos_two_mul _
  have hM2nn : (0:ℝ) ≤ M2^2 := sq_nonneg M2
  have hss1 : (0.66582557*0.66582557:ℝ) ≤ Real.sin 0.7286 * Real.sin 0.7286 :=
    mul_le_mul hs1 hs1 (by norm_num) (by linarith)
  have hss2 : Real.sin 0.7286 * Real.sin 0.7286 ≤ (0.66582574*0.66582574:ℝ) :=
    mul_le_mul hs2 hs2 (by linarith) (by norm_num)
  have hgn1 : (0.52187966:ℝ) ≤ M2^2 * Real.sin 0.7286^2 - 1 := by
    nlinarith [mul_le_mul hm1 hss1 (by norm_num) hM2nn]
  have hgn2 : M2^2 * Real.sin 0.7286^2 - 1 ≤ 0.52203452 := by
    nlinarith [mul_le_mul hm2 hss2 (mul_nonneg hspos.le hspos.le) (by norm_num)]
  have hb1 : (0.4 + 2*(0.74610533*0.74610533):ℝ) ≤ 1.4 + (2*Real.cos 0.7286^2 - 1) := by
    nlinarith [mul_le_mul hc1 hc1 (by norm_num) (by linarith)]
  have hb2 : 1.4 + (2*Real.cos 0.7286^2 - 1) ≤ (0.4 + 2*(0.74610731*0.74610731):ℝ) := by
    nlinarith [mul_le_mul hc2 hc2 (by linarith) (by norm_num)]
  have hgd1 : (7.19514535:ℝ) ≤ M2^2 * (gamma + Real.cos (2*(0.7286:ℝ))) + 2 := by
    rw [hg, hc2t]
    nlinarith [mul_le_mul hm1 hb1 (by norm_num) hM2nn]
  have hgd2 : M2^2 * (gamma + Real.cos (2*(0.7286:ℝ))) + 2 ≤ 7.19569158 := by
    rw [hg, hc2t]
    nlinarith [mul_le_mul hm2 hb2 (le_trans (by norm_num) hb1) (by norm_num)]
  have hgdpos : (0:ℝ) < M2^2 * (gamma + Real.cos (2*(0.7286:ℝ))) + 2 := by linarith
  unfold oblique
  rw [tan_delta_eq]
  have hrw : 2 * (1/Real.tan 0.7286) * (M2^2 * Real.sin 0.7286^2 - 1) /
      (M2^2 * (gamma + Real.cos (2*(0.7286:ℝ))) + 2) =
      (2*Real.cos 0.7286*(M2^2 * Real.sin 0.7286^2 - 1)) /
      (Real.sin 0.7286 * (M2^2 * (gamma + Real.cos (2*(0.7286:ℝ))) + 2)) := by
    rw [Real.tan_eq_sin_div_cos, one_div_div]
    field_simp
  rw [hrw]
  have hnum1 : (2*0.74610533*0.52187966:ℝ) ≤
      2*Real.cos 0.7286*(M2^2 * Real.sin 0.7286^2 - 1) := by
    nlinarith [mul_le_mul hc1 hgn1 (by norm_num) (by linarith)]
  have hnum2 : 2*Real.cos 0.7286*(M2^2 * Real.sin 0.7286^2 - 1) ≤
      (2*0.74610731*0.52203452:ℝ) := by
    nlinarith [mul_le_mul hc2 hgn2 (by linarith) (by norm_num)]
  have hden1 : (0.66582557*7.19514535:ℝ) ≤
      Real.sin 0.7286 * (M2^2 * (gamma + Real.cos (2*(0.7286:ℝ))) + 2) := by
    nlinarith [mul_le_mul hs1 hgd1 (by norm_num) (by linarith)]
  have hden2 : Real.sin 0.7286 * (M2^2 * (gamma + Real.cos (2*(0.7286:ℝ))) + 2) ≤
      (0.66582574*7.19569158:ℝ) := by
    nlinarith [mul_le_mul hs2 hgd2 (by linarith) (by norm_num)]
  have hG := div_bounds hnum1 hnum2 hden1 hden2 (by norm_num) (by norm_num)
  have hfinal : (0.16218561:ℝ) < (2*0.74610533*0.52187966:ℝ)/(0.66582574*7.19569158) := by
    norm_num
  linarith [hG.1, hE.2]

theorem oblique_continuousOn :
    ContinuousOn (fun t => oblique t M2 delta gamma) (Set.Icc 0.7277 0.7286) := by
  intro x hx
  have hpi3 : (3:ℝ) < Real.pi := Real.pi_gt_three
  have hsin : 0 < Real.sin x := Real.sin_pos_of_pos_of_lt_pi (by linarith [hx.1]) (by linarith [hx.2])
  have hcos : 0 < Real.cos x := Real.cos_pos_of_mem_Ioo ⟨by linarith [hx.1], by linarith [hx.2]⟩
  have htanpos : 0 < Real.tan x := by
    rw [Real.tan_eq_sin_div_cos]
    exact div_pos hsin hcos
  have htancont : ContinuousAt Real.tan x := Real.continuousAt_tan.2 (ne_of_gt hcos)
  have hden : (0:ℝ) < M2^2 * (gamma + Real.cos (2*x)) + 2 := by
    have hc := Real.neg_one_le_cos (2*x)
    have hg : gamma = (1.4:ℝ) := rfl
    rw [hg]
    nlinarith [mul_nonneg (sq_nonneg M2) (show (0:ℝ) ≤ 1.4 + Real.cos (2*x) by linarith)]
  apply ContinuousAt.continuousWithinAt
  unfold oblique
  apply ContinuousAt.sub continuousAt_const
  apply ContinuousAt.div
  · apply ContinuousAt.mul
    · exact continuousAt_const.mul (continuousAt_const.div htancont (ne_of_gt htanpos))
    · fun_prop
  · fun_prop
  · exact ne_of_gt hden

/-- Conversion of an interval in radians to bounds in degrees. -/
theorem degrees_bounds (dlo dhi : ℝ) {r lo hi : ℝ} (h1 : lo ≤ r) (h2 : r ≤ hi)
    (h6 : 0 < dlo) (h4 : dlo * 3.141593 < lo * 180) (h5 : hi * 180 < dhi * 3.141592) :
    dlo < degrees r ∧ degrees r < dhi := by
  have hpl := Real.pi_gt_d6
  have hpu := Real.pi_lt_d6
  have hpipos := Real.pi_pos
  have hdhi : 0 < dhi := by nlinarith
  unfold degrees
  constructor
  · rw [lt_div_iff₀ hpipos]
    nlinarith
  · rw [div_lt_iff₀ hpipos]
    nlinarith

end ObliqueShock

/-! ## Claim theorems about interpolation and the residual -/

open SolveInterp

/-- C9: linearly interpolating the query M = 1.715 against the tables
machs (independent axis) and p_ratios (dependent axis) returns
p/pt = 0.19806, i.e. approximately 0.198060. -/
theorem C9_forward_interp :
    interp 1.715 machs p_ratios = 0.19806 ∧
    |interp 1.715 machs p_ratios - 0.198060| < 1/1000000 := by
  constructor
  · norm_num [machs, p_ratios, interp]
  · norm_num [machs, p_ratios, interp]

/-- C3: interpolating the query p/pt = 0.198 against the reversed tables
returns M = 1.7152, which is not the exact inverse of the forward
interpolation (M = 1.715 mapped to 0.19806): the round trip is
approximate, not exact. -/
theorem C3_reverse_interp_round_trip :
    interp 0.198 p_ratios.reverse machs.reverse = 1.7152 ∧
    |interp 0.198 p_ratios.reverse machs.reverse - 1.7152| < 1/10000 ∧
    interp 1.715 machs p_ratios = 0.19806 ∧
    interp 0.198 p_ratios.reverse machs.reverse ≠ 1.715 := by
  refine ⟨?_, ?_, ?_, ?_⟩ <;> norm_num [machs, p_ratios, interp]

/-- C4: the reverse-interpolation cell references the unbound names
`p_ratio` and `M` (the preceding cells bind `p_ratios` and `machs`, and
`M` is never bound; only `M1` is), so evaluating it raises a `NameError`
and produces no interpolated value. -/
theorem C4_reverse_cell_name_error :
    cellResult definedNames reverseCellRefs =
      Except.error "NameError: name p_ratio is not defined" ∧
    "p_ratio" ∉ definedNames ∧ "M" ∉ definedNames ∧
    "p_ratios" ∈ definedNames ∧ "machs" ∈ definedNames ∧ "M1" ∈ definedNames ∧
    (∀ u : Unit, cellResult definedNames reverseCellRefs ≠ Except.ok u) := by
  have herr : cellResult definedNames reverseCellRefs =
      Except.error "NameError: name p_ratio is not defined" := rfl
  refine ⟨herr, by decide, by decide, by decide, by decide, by decide, ?_⟩
  intro u h
  rw [herr] at h
  exact Except.noConfusion h

/-- C6: the residual `fA M2 M1 Aratio gamma` equals `Aratio` minus
`(M1/M2) * ((1 + (gamma-1)/2 * M2^2) / (1 + (gamma-1)/2 * M1^2)) ^ ((gamma+1)/(2*(gamma-1)))`,
which is the documented area-Mach relation with the entropy-change factor
`e^(Δs/R)` fixed at unity: the residual vanishes exactly when the
documented equation holds with `Δs/R = 0`. -/
theorem C6_residual_is_documented_relation (M2 M1 Aratio gamma : ℝ) :
    fA M2 M1 Aratio gamma =
      Aratio - (M1/M2) *
        ((1 + ((gamma - 1)/2) * M2^2)/(1 + ((gamma - 1)/2) * M1^2)) ^ ((gamma + 1)/(2*(gamma - 1))) ∧
    (fA M2 M1 Aratio gamma = 0 ↔ areaMachDocumented M1 M2 Aratio gamma 0) := by
  refine ⟨rfl, ?_⟩
  unfold fA areaMachDocumented
  rw [Real.exp_zero, mul_one, sub_eq_zero]

/-- C1: for every physically valid input (gamma above one, a supersonic
bracket) across which the residual `fA` changes sign, the bracketed root
solve reaches an iterate whose `M2`, substituted back into `fA`, yields a
residual within the tolerance 1e-6 of zero. -/
theorem C1_root_satisfies_residual_tolerance (M1 Aratio gamma a b : ℝ)
    (hgamma : 1 < gamma) (ha : 1 < a) (hab : a ≤ b)
    (hsign : fA a M1 Aratio gamma * fA b M1 Aratio gamma < 0) :
    ∃ n, |fA (bisect (fun M2 => fA M2 M1 Aratio gamma) a b n).1 M1 Aratio gamma| <
      1/1000000 := by
  have hcont := fA_continuousOn M1 Aratio gamma a b hgamma (lt_trans one_pos ha)
  exact bisect_residual_small _ a b hab hcont hsign.le _ (by norm_num)

/-- Witness for C1 at the worked example M1 = 0.5, A2/A1 = 2.5,
gamma = 1.4, bracket [1.0001, 10]. -/
theorem C1_witness :
    ((1:ℝ) < 1.4 ∧ (1:ℝ) < 1.0001 ∧ (1.0001:ℝ) ≤ 10 ∧
      fA 1.0001 0.5 2.5 1.4 * fA 10 0.5 2.5 1.4 < 0) ∧
    ∃ n, |fA (bisect (fun M2 => fA M2 0.5 2.5 1.4) 1.0001 10 n).1 0.5 2.5 1.4| <
      1/1000000 := by
  obtain ⟨hpos, hneg⟩ := fA_bracket_sign_change
  have hsign : fA 1.0001 0.5 2.5 1.4 * fA 10 0.5 2.5 1.4 < 0 :=
    mul_neg_of_pos_of_neg hpos hneg
  exact ⟨⟨by norm_num, by norm_num, by norm_num, hsign⟩,
    C1_root_satisfies_residual_tolerance 0.5 2.5 1.4 1.0001 10
      (by norm_num) (by norm_num) (by norm_num) hsign⟩

/-- C2: for M1 = 0.5, A2/A1 = 2.5, gamma = 1.4 and bracket [1.0001, 10],
the value the bracketed root solve of `fA` converges to is a root of the
residual and is within 1e-6 of 2.753763176695055. -/
theorem C2_worked_example :
    fA (bisectLimit (fun M2 => fA M2 0.5 2.5 1.4) 1.0001 10) 0.5 2.5 1.4 = 0 ∧
    |bisectLimit (fun M2 => fA M2 0.5 2.5 1.4) 1.0001 10 - 2.753763176695055| <
      1/1000000 := by
  obtain ⟨hpos, hneg⟩ := fA_bracket_sign_change
  have hsign : fA 1.0001 0.5 2.5 1.4 * fA 10 0.5 2.5 1.4 ≤ 0 :=
    (mul_neg_of_pos_of_neg hpos hneg).le
  have hcont := fA_continuousOn 0.5 2.5 1.4 1.0001 10 (by norm_num) (by norm_num)
  obtain ⟨hmem, hroot⟩ := bisectLimit_root (fun M2 => fA M2 0.5 2.5 1.4) 1.0001 10
    (by norm_num) hcont hsign
  set c := bisectLimit (fun M2 => fA M2 0.5 2.5 1.4) 1.0001 10 with hc
  have hc1 : (1:ℝ) ≤ c := le_trans (by norm_num) hmem.1
  have hl : 0 < fA (2.753763176695055 - 1/1000000) 0.5 2.5 1.4 := by
    rw [fA_gamma14]; norm_num
  have hu : fA (2.753763176695055 + 1/1000000) 0.5 2.5 1.4 < 0 := by
    rw [fA_gamma14]; norm_num
  refine ⟨hroot, ?_⟩
  have h1 : 2.753763176695055 - 1/1000000 < c := by
    by_contra hcon
    push_neg at hcon
    rcases eq_or_lt_of_le hcon with heq | hlt
    · rw [← heq] at hl
      simp only [hroot] at hl
      exact absurd hl (lt_irrefl 0)
    · have := fA_example_strictAnti c (2.753763176695055 - 1/1000000) hc1 hlt
      rw [hroot] at this
      linarith
  have h2 : c < 2.753763176695055 + 1/1000000 := by
    by_contra hcon
    push_neg at hcon
    rcases eq_or_lt_of_le hcon with heq | hlt
    · rw [heq] at hu
      simp only [hroot] at hu
      exact absurd hu (lt_irrefl 0)
    · have := fA_example_strictAnti (2.753763176695055 + 1/1000000) c (by norm_num) hlt
      rw [hroot] at this
      linarith
  rw [abs_lt]
  constructor <;> linarith

/-- C7: a bracket whose endpoint residuals do not change sign makes the
root solve surface an explicit reported failure, never a silent value. -/
theorem C7_bad_bracket_reports_error (f : ℝ → ℝ) (a b : ℝ) (n : ℕ)
    (h : 0 < f a * f b) :
    root_scalar f a b n = Except.error "no root in bracket" ∧
    ∀ x : ℝ, root_scalar f a b n ≠ Except.ok x := by
  have he : root_scalar f a b n = Except.error "no root in bracket" := by
    unfold root_scalar
    rw [if_pos h]
  exact ⟨he, fun x hx => Except.noConfusion (he ▸ hx)⟩

/-- Witness for C7: on [3, 4] the worked example's residual is negative at
both ends, and the solve reports the failure. -/
theorem C7_witness :
    0 < fA 3 0.5 2.5 1.4 * fA 4 0.5 2.5 1.4 ∧
    root_scalar (fun x => fA x 0.5 2.5 1.4) 3 4 5 = Except.error "no root in bracket" := by
  have h1 : fA 3 0.5 2.5 1.4 < 0 := by rw [fA_gamma14]; norm_num
  have h2 : fA 4 0.5 2.5 1.4 < 0 := by rw [fA_gamma14]; norm_num
  have h : 0 < fA 3 0.5 2.5 1.4 * fA 4 0.5 2.5 1.4 := mul_pos_of_neg_of_neg h1 h2
  exact ⟨h, (C7_bad_bracket_reports_error (fun x => fA x 0.5 2.5 1.4) 3 4 5 h).1⟩

open ObliqueShock in
/-- C5: for M1 = 2.2, theta = 35 degrees, gamma = 1.4 the deflection angle
is about 9.21 degrees, M2 about 1.85, M1n about 1.262; the reflected shock
angle theta_2 (the root of the deflection relation on the weak branch) is
about 41.7 degrees, beta = theta_2 - delta about 32.5 degrees, the second
shock's normal component M2 sin theta_2 about 1.233, and that component is
strictly smaller than M1n. -/
theorem C5_oblique_shock_values :
    |degrees delta - 9.21| < 0.005 ∧
    |M2 - 1.85| < 0.005 ∧
    |M1n - 1.262| < 0.0005 ∧
    ∃ t ∈ Set.Icc (0.7277:ℝ) 0.7286,
      oblique t M2 delta gamma = 0 ∧
      |degrees t - 41.7| < 0.05 ∧
      |degrees (t - delta) - 32.5| < 0.05 ∧
      |M2 * Real.sin t - 1.233| < 0.002 ∧
      M2 * Real.sin t < M1n := by
  obtain ⟨hd1, hd2⟩ := delta_bounds
  obtain ⟨hm1, hm2⟩ := M2_bounds
  obtain ⟨hn1, hn2⟩ := M1n_bounds
  have hpi3 : (3:ℝ) < Real.pi := Real.pi_gt_three
  refine ⟨?_, ?_, ?_, ?_⟩
  · have h := degrees_bounds 9.205 9.215 hd1 hd2 (by norm_num)
      (by norm_num) (by norm_num)
    rw [abs_lt]
    constructor <;> linarith [h.1, h.2]
  · rw [abs_lt]
    constructor <;> linarith
  · rw [abs_lt]
    constructor <;> linarith
  · have hsub := intermediate_value_Icc' (show (0.7277:ℝ) ≤ 0.7286 by norm_num)
      oblique_continuousOn
    have h0 : (0:ℝ) ∈ Set.Icc (oblique 0.7286 M2 delta gamma)
        (oblique 0.7277 M2 delta gamma) :=
      ⟨oblique_neg_at_right.le, oblique_pos_at_left.le⟩
    obtain ⟨t, htmem, ht0⟩ := hsub h0
    have hst1 : (0.66515381:ℝ) ≤ Real.sin t :=
      le_trans sin_left_bounds.1
        (Real.sin_le_sin_of_le_of_le_pi_div_two (by linarith)
          (by linarith [htmem.2]) htmem.1)
    have hst2 : Real.sin t ≤ 0.66582574 :=
      le_trans
        (Real.sin_le_sin_of_le_of_le_pi_div_two (by linarith [htmem.1])
          (by linarith) htmem.2) sin_right_bounds.2
    refine ⟨t, htmem, ht0, ?_, ?_, ?_, ?_⟩
    · have h := degrees_bounds 41.65 41.75 htmem.1 htmem.2 (by norm_num)
        (by norm_num) (by norm_num)
      rw [abs_lt]
      constructor <;> linarith [h.1, h.2]
    · have hl : (0.7277 - 0.160797:ℝ) ≤ t - delta := by linarith [htmem.1]
      have hh : t - delta ≤ (0.7286 - 0.160773:ℝ) := by linarith [htmem.2]
      have h := degrees_bounds 32.45 32.55 hl hh (by norm_num)
        (by norm_num) (by norm_num)
      rw [abs_lt]
      constructor <;> linarith [h.1, h.2]
    · rw [abs_lt]
      constructor
      · nlinarith [mul_le_mul hm1 hst1 (by norm_num) (by linarith)]
      · nlinarith [mul_le_mul hm2 hst2 (by linarith) (by norm_num)]
    · nlinarith [mul_le_mul hm2 hst2 (by linarith) (by norm_num)]

open ObliqueShock in
/-- C8: only theta_2 comes from the bracketed root solve on the weak-shock
bracket; every downstream quantity is closed-form algebra: M1n = M1 sin
theta, M2n squared is the normal-shock relation written with gamma (as the
code does, despite the notebook markdown writing 2/(delta-1)), M2 = M2n /
sin(theta - delta), and beta = theta_2 - delta. -/
theorem C8_closed_form_downstream :
    theta_2 = bisectLimit (fun t => oblique t M2 delta gamma)
      (radians 0.0001) (radians 45.0) ∧
    M1n = M1 * Real.sin theta ∧
    M2n^2 = (M1n^2 + (2/(gamma - 1))) / (M1n^2 * (2*gamma)/(gamma - 1) - 1) ∧
    M2 = M2n / Real.sin (theta - delta) ∧
    beta = theta_2 - delta := by
  refine ⟨rfl, rfl, ?_, rfl, rfl⟩
  unfold M2n
  apply Real.sq_sqrt
  linarith [radicand_bounds.1]

end GasDyn
